import Mathlib

/-!
Shallow embedding of `src/system/stack/btm/hfp_msbc_decoder.cc`, the HFP mSBC
decoder wrapper of the Bluetooth module. The wrapper owns a single static
decoder state (engine context, scratch words, and a 120-sample int16 output
buffer) and drives one external collaborator, the Sub-band Codec Engine
(`OI_CODEC_SBC_DecoderReset`, `OI_CODEC_SBC_DecoderConfigureMSbc`,
`OI_CODEC_SBC_DecodeFrame`, implemented under `embdrv/sbc`, outside `src/`).
The engine is therefore modelled as an abstract record of functions `SbcEngine`
and every theorem quantifies over it; the wrapper functions additionally return
the list of engine invocations they perform, so that claims about how often and
with which arguments the collaborator is called are statable.
-/

/-- Modelled from the spec: the engine status type `OI_STATUS` (header
`embdrv/sbc/decoder/include/oi_status.h`, not under `src/`), an integer
status code. -/
abbrev OI_STATUS := Int

/-- Modelled from the spec: the engine success test `OI_SUCCESS(status)`
(engine headers, not under `src/`): it holds exactly on the success status,
which is the code 0. -/
def OI_SUCCESS (s : OI_STATUS) : Bool := s == 0

/-- The opaque engine decoder context `OI_CODEC_SBC_DECODER_CONTEXT`
(engine header, not under `src/`; the spec treats it as opaque filter
history and stream parameters). Modelled as an opaque code; the code 0
denotes the all-zero-bytes context value. -/
abbrev OiCtx := Nat

/-- The opaque contents of the decoder scratch words `context_data`
(contents are engine implementation detail per the spec). Modelled as an
opaque code; the code 0 denotes the all-zero-bytes contents. -/
abbrev Scratch := Nat

/-- From the source: `#define HFP_MSBC_PKT_LEN 60`. -/
def HFP_MSBC_PKT_LEN : Nat := 60

/-- Modelled from the spec: engine header constant `SBC_MAX_BLOCKS = 16`
(engine headers, not under `src/`); no claim depends on its value. -/
def SBC_MAX_BLOCKS : Nat := 16

/-- Modelled from the spec: engine header constant `SBC_MAX_BANDS = 8`
(engine headers, not under `src/`); no claim depends on its value. -/
def SBC_MAX_BANDS : Nat := 8

/-- Modelled from the spec: engine header constant `SBC_MAX_CHANNELS = 2`
(engine headers, not under `src/`); no claim depends on its value. -/
def SBC_MAX_CHANNELS : Nat := 2

/-- Modelled from the spec: engine header constant
`SBC_CODEC_FAST_FILTER_BUFFERS = 27`, the filter-buffer count selecting
fast-filter operation (engine headers, not under `src/`); no claim depends
on its numeric value, only on it being the fast-filter choice. -/
def SBC_CODEC_FAST_FILTER_BUFFERS : Nat := 27

/-- Modelled from the spec: the engine sizing macro
`CODEC_DATA_WORDS(numChannels, numBuffers)` (header
`embdrv/sbc/decoder/include/oi_codec_sbc.h`, not under `src/`): the engine
stated scratch requirement, in 32-bit words, for a decoder with the given
channel count and filter-buffer count. No claim depends on the numeric
value, only on the arguments the wrapper supplies to it; the formula
mirrors the byte accounting the engine header states (int32 subband
samples per channel plus int16 filter buffers, rounded up to words). -/
def CODEC_DATA_WORDS (numChannels numBuffers : Nat) : Nat :=
  (4 * SBC_MAX_BLOCKS * numChannels * SBC_MAX_BANDS
    + 2 * SBC_MAX_CHANNELS * SBC_MAX_BANDS * numBuffers
    + (4 - 1)) / 4

/-- From the source (declaration of `tHFP_MSBC_DECODER.context_data`): the
argument pair the wrapper passes to the engine sizing macro, namely
channel count `2` and `SBC_CODEC_FAST_FILTER_BUFFERS`. -/
def hfp_msbc_context_data_words_args : Nat × Nat :=
  (2, SBC_CODEC_FAST_FILTER_BUFFERS)

/-- Modelled from the spec: the argument pair that selects the engine
stated requirement for mono (one-channel), fast-filter operation, namely
channel count `1` and the fast-filter buffer count. -/
def mono_fast_filter_args : Nat × Nat :=
  (1, SBC_CODEC_FAST_FILTER_BUFFERS)

/-- Number of 32-bit words of the wrapper scratch array `context_data`. -/
def context_data_words : Nat :=
  CODEC_DATA_WORDS hfp_msbc_context_data_words_args.1
    hfp_msbc_context_data_words_args.2

/-- Byte size of the scratch array: `sizeof(hfp_msbc_decoder.context_data)`
with 4-byte `uint32_t` elements. -/
def sizeof_context_data : Nat := 4 * context_data_words

/-- Byte size of the output buffer: `sizeof(hfp_msbc_decoder.decode_buf)`,
that is 120 `int16_t` samples of 2 bytes each. -/
def sizeof_decode_buf : Nat := 2 * 120

/-- Pointer values the caller cell `*o_buf` can hold: the address of the
static `hfp_msbc_decoder.decode_buf`, or any other address. -/
inductive BytePtr where
  | decode_buf_addr : BytePtr
  | addr : Nat → BytePtr
deriving DecidableEq

/-- The decoder state struct `tHFP_MSBC_DECODER` of the source: engine
context, scratch words, and the 120-sample int16 output buffer. -/
structure tHFP_MSBC_DECODER where
  decoder_context : OiCtx
  context_data : Scratch
  decode_buf : List Int
deriving DecidableEq

/-- The all-zero-bytes struct value: what `memset(&hfp_msbc_decoder, 0,
sizeof(hfp_msbc_decoder))` produces, and what C static zero-initialization
of `static tHFP_MSBC_DECODER hfp_msbc_decoder;` starts from. -/
def tHFP_MSBC_DECODER.zero : tHFP_MSBC_DECODER :=
  { decoder_context := 0, context_data := 0, decode_buf := List.replicate 120 0 }

/-- The never-initialized state: the static instance at program start
(C static storage is zero-initialized). -/
def hfp_msbc_decoder_initial : tHFP_MSBC_DECODER := tHFP_MSBC_DECODER.zero

/-- One invocation of an engine entry point, with the arguments the
wrapper passes. -/
inductive EngineCall where
  | reset : OiCtx → Scratch → Nat → Nat → Nat → Bool → EngineCall
  | configureMSbc : OiCtx → EngineCall
  | decodeFrame : OiCtx → List Nat → Nat → Nat → EngineCall
deriving DecidableEq

/-- True exactly on `decodeFrame` invocations. -/
def EngineCall.isDecodeFrame : EngineCall → Bool
  | EngineCall.decodeFrame _ _ _ _ => true
  | _ => false

/-- Result of `OI_CODEC_SBC_DecoderReset`: a status, and the context and
scratch contents after the call (the engine writes both through the
pointers it receives). -/
structure ResetResult where
  status : OI_STATUS
  ctx : OiCtx
  scratch : Scratch
deriving DecidableEq

/-- Result of `OI_CODEC_SBC_DecoderConfigureMSbc`: a status and the
context after the call. -/
structure ConfigResult where
  status : OI_STATUS
  ctx : OiCtx
deriving DecidableEq

/-- Result of `OI_CODEC_SBC_DecodeFrame`: a status; the value the engine
stores back through the in/out byte counters (`frameBytes` is the count of
input bytes remaining, `pcmBytes` the count of output bytes produced); the
context and scratch after the call; and the samples the engine wrote into
the output buffer through the output pointer. -/
structure DecodeFrameResult where
  status : OI_STATUS
  frameBytes : Nat
  pcmBytes : Nat
  ctx : OiCtx
  scratch : Scratch
  pcm : List Int
deriving DecidableEq

/-- Modelled from the spec: the Sub-band Codec Engine, the external
collaborator (implemented under `embdrv/sbc`, not under `src/`). Each
entry point is a pure function of the state it is handed, matching the
spec description of the engine as a synchronous in-memory collaborator
with no hidden state beyond the context and scratch the wrapper owns. -/
structure SbcEngine where
  decoderReset : OiCtx → Scratch → Nat → Nat → Nat → Bool → ResetResult
  decoderConfigureMSbc : OiCtx → ConfigResult
  decodeFrame : OiCtx → Scratch → List Nat → Nat → Nat → DecodeFrameResult

/-- Result of `hfp_msbc_decoder_init`: the returned bool, the decoder
state after the call, and the engine invocations performed. -/
structure InitResult where
  ok : Bool
  st : tHFP_MSBC_DECODER
  calls : List EngineCall
deriving DecidableEq

/-- Result of `hfp_msbc_decoder_decode_packet`: the returned bool, the
decoder state after the call, the value of the caller cell `*o_buf` after
the call, and the engine invocations performed. -/
structure DecodePacketResult where
  ok : Bool
  st : tHFP_MSBC_DECODER
  o_buf : BytePtr
  calls : List EngineCall
deriving DecidableEq

/-- Embedding of `hfp_msbc_decoder_init`: reset the engine context for the
scratch array (declaring `sizeof(context_data)` bytes, max channels 1, pcm
stride 1, not enhanced); on reset failure return false; otherwise
configure the context for mSBC and return whether that succeeded. -/
def hfp_msbc_decoder_init (E : SbcEngine) (st : tHFP_MSBC_DECODER) : InitResult :=
  let r1 := E.decoderReset st.decoder_context st.context_data sizeof_context_data 1 1 false
  let st1 : tHFP_MSBC_DECODER :=
    { st with decoder_context := r1.ctx, context_data := r1.scratch }
  let call1 := EngineCall.reset st.decoder_context st.context_data sizeof_context_data 1 1 false
  if !(OI_SUCCESS r1.status) then
    { ok := false, st := st1, calls := [call1] }
  else
    let r2 := E.decoderConfigureMSbc st1.decoder_context
    let st2 : tHFP_MSBC_DECODER := { st1 with decoder_context := r2.ctx }
    if !(OI_SUCCESS r2.status) then
      { ok := false, st := st2, calls := [call1, EngineCall.configureMSbc st1.decoder_context] }
    else
      { ok := true, st := st2, calls := [call1, EngineCall.configureMSbc st1.decoder_context] }

/-- Embedding of `hfp_msbc_decoder_cleanup`:
`memset(&hfp_msbc_decoder, 0, sizeof(hfp_msbc_decoder))`, which maps every
struct value to the all-zero-bytes struct value. -/
def hfp_msbc_decoder_cleanup (_st : tHFP_MSBC_DECODER) : tHFP_MSBC_DECODER :=
  tHFP_MSBC_DECODER.zero

/-- Embedding of `hfp_msbc_decoder_decode_packet`: present the input
buffer with `oi_size = HFP_MSBC_PKT_LEN` and the output buffer with
`out_avail = sizeof(decode_buf)` to the engine decode-frame primitive,
once; fail unless the engine status is success, the produced output count
is exactly 240, and the remaining input count is 0; on success store the
address of the internal output buffer into the caller cell. The engine
writes into the output buffer through `out_ptr` on every call, so the
state update applies the written samples in both branches. -/
def hfp_msbc_decoder_decode_packet (E : SbcEngine) (st : tHFP_MSBC_DECODER)
    (i_buf : List Nat) (o_buf : BytePtr) : DecodePacketResult :=
  let oi_size : Nat := HFP_MSBC_PKT_LEN
  let out_avail : Nat := sizeof_decode_buf
  let r := E.decodeFrame st.decoder_context st.context_data i_buf oi_size out_avail
  let st1 : tHFP_MSBC_DECODER :=
    { decoder_context := r.ctx, context_data := r.scratch,
      decode_buf := (r.pcm ++ st.decode_buf.drop r.pcm.length).take 120 }
  let calls := [EngineCall.decodeFrame st.decoder_context i_buf oi_size out_avail]
  if !(OI_SUCCESS r.status) || r.pcmBytes != 240 || r.frameBytes != 0 then
    { ok := false, st := st1, o_buf := o_buf, calls := calls }
  else
    { ok := true, st := st1, o_buf := BytePtr.decode_buf_addr, calls := calls }

/-- The unsigned 16-bit representation of an int16 sample. -/
def uint16_of_int16 (v : Int) : Nat := (v % 65536).toNat

/-- Little-endian byte pair of an int16 sample. -/
def int16_le_bytes (v : Int) : List Nat :=
  [uint16_of_int16 v % 256, uint16_of_int16 v / 256]

/-- The byte image of the int16 output buffer (what a caller reading the
returned `const uint8_t*` view sees). -/
def pcm_bytes (buf : List Int) : List Nat :=
  (buf.map int16_le_bytes).flatten

/-- Reading bytes through a pointer in a given decoder state: the address
of `decode_buf` aliases the internal output buffer; other addresses are
not memory this component owns. -/
def read_bytes (st : tHFP_MSBC_DECODER) : BytePtr → Option (List Nat)
  | BytePtr.decode_buf_addr => some (pcm_bytes st.decode_buf)
  | BytePtr.addr _ => none

/-- States in which no successful initialize has occurred since the last
cleanup: the initial all-zero static state, any state just after cleanup,
and any state reached from such a state by a failed initialize or by a
decode call. -/
inductive UninitState (E : SbcEngine) : tHFP_MSBC_DECODER → Prop where
  | initial : UninitState E hfp_msbc_decoder_initial
  | cleaned (s : tHFP_MSBC_DECODER) : UninitState E (hfp_msbc_decoder_cleanup s)
  | failedInit (s : tHFP_MSBC_DECODER) (h : UninitState E s)
      (hf : (hfp_msbc_decoder_init E s).ok = false) :
      UninitState E (hfp_msbc_decoder_init E s).st
  | decoded (s : tHFP_MSBC_DECODER) (i : List Nat) (p : BytePtr)
      (h : UninitState E s) :
      UninitState E (hfp_msbc_decoder_decode_packet E s i p).st

/-- Modelled from the spec: the lifecycle requirement (spec, testable
property "Lifecycle ordering") realized by the engine, whose
implementation under `embdrv/sbc` is not under `src/`. There is a class
`U` of unconfigured contexts such that the all-zero context is in it,
the decode-frame primitive rejects (non-success status) every context in
it and leaves the context in it, a failed reset leaves a context in it,
and a reset that succeeds but whose mSBC configuration fails leaves the
resulting context in it. -/
def EngineRejectsUnconfigured (E : SbcEngine) (U : OiCtx → Prop) : Prop :=
  U 0 ∧
  (∀ ctx scr i n cap, U ctx →
    OI_SUCCESS (E.decodeFrame ctx scr i n cap).status = false ∧
    U (E.decodeFrame ctx scr i n cap).ctx) ∧
  (∀ ctx scr sb mc ps e, U ctx →
    OI_SUCCESS (E.decoderReset ctx scr sb mc ps e).status = false →
    U (E.decoderReset ctx scr sb mc ps e).ctx) ∧
  (∀ ctx scr sb mc ps e, U ctx →
    OI_SUCCESS (E.decoderReset ctx scr sb mc ps e).status = true →
    OI_SUCCESS (E.decoderConfigureMSbc (E.decoderReset ctx scr sb mc ps e).ctx).status = false →
    U (E.decoderConfigureMSbc (E.decoderReset ctx scr sb mc ps e).ctx).ctx)

/-- A concrete engine on which every entry point reports failure
(status 1). Used to instantiate hypotheses in witnesses. -/
def engineAllFail : SbcEngine :=
  { decoderReset := fun ctx scr _ _ _ _ => { status := 1, ctx := ctx, scratch := scr }
    decoderConfigureMSbc := fun ctx => { status := 1, ctx := ctx }
    decodeFrame := fun ctx scr _ _ _ =>
      { status := 1, frameBytes := 0, pcmBytes := 0, ctx := ctx, scratch := scr, pcm := [] } }

/-- A concrete engine on which every entry point succeeds and the decode
primitive consumes the whole input and produces exactly 240 bytes. Used
to instantiate hypotheses in witnesses. -/
def engineOk : SbcEngine :=
  { decoderReset := fun ctx scr _ _ _ _ => { status := 0, ctx := ctx + 1, scratch := scr }
    decoderConfigureMSbc := fun ctx => { status := 0, ctx := ctx + 1 }
    decodeFrame := fun ctx scr _ _ _ =>
      { status := 0, frameBytes := 0, pcmBytes := 240, ctx := ctx + 1, scratch := scr,
        pcm := List.replicate 120 3 } }

/-- Claim C1: a decode call returns success if and only if the engine
reports a success status, the remaining-input count it reports is 0, and
the produced-output count it reports is exactly 240. -/
theorem decode_packet_ok_iff (E : SbcEngine) (st : tHFP_MSBC_DECODER)
    (i : List Nat) (p : BytePtr) :
    (hfp_msbc_decoder_decode_packet E st i p).ok = true ↔
      (OI_SUCCESS (E.decodeFrame st.decoder_context st.context_data i
          HFP_MSBC_PKT_LEN sizeof_decode_buf).status = true ∧
        (E.decodeFrame st.decoder_context st.context_data i
          HFP_MSBC_PKT_LEN sizeof_decode_buf).frameBytes = 0 ∧
        (E.decodeFrame st.decoder_context st.context_data i
          HFP_MSBC_PKT_LEN sizeof_decode_buf).pcmBytes = 240) := by
  simp only [hfp_msbc_decoder_decode_packet]
  split
  next hcond =>
    simp only [Bool.or_eq_true, Bool.not_eq_true', bne_iff_ne, ne_eq] at hcond
    constructor
    · intro h; exact absurd h (by simp)
    · rintro ⟨h1, h2, h3⟩
      rcases hcond with (hc | hc) | hc
      · simp [hc] at h1
      · exact (hc h3).elim
      · exact (hc h2).elim
  next hcond =>
    simp only [Bool.or_eq_true, Bool.not_eq_true', bne_iff_ne, ne_eq, not_or, not_not] at hcond
    obtain ⟨⟨h1, h2⟩, h3⟩ := hcond
    refine ⟨fun _ => ⟨?_, h3, h2⟩, fun _ => rfl⟩
    cases hOS : OI_SUCCESS (E.decodeFrame st.decoder_context st.context_data i
        HFP_MSBC_PKT_LEN sizeof_decode_buf).status
    · exact absurd hOS h1
    · rfl

/-- Claim C2: on every decode call, whatever the caller buffer is, the
wrapper performs exactly the single engine invocation that presents the
caller buffer with the fixed input length `HFP_MSBC_PKT_LEN = 60` and the
full output capacity `sizeof(decode_buf) = 240` bytes; the input buffer
is handed over for every `i_buf` without any length pre-validation, any
mismatch being left to the engine size accounting. -/
theorem decode_packet_fixed_sizes (E : SbcEngine) (st : tHFP_MSBC_DECODER)
    (i : List Nat) (p : BytePtr) :
    (hfp_msbc_decoder_decode_packet E st i p).calls =
      [EngineCall.decodeFrame st.decoder_context i HFP_MSBC_PKT_LEN sizeof_decode_buf] ∧
    HFP_MSBC_PKT_LEN = 60 ∧ sizeof_decode_buf = 240 := by
  refine ⟨?_, rfl, rfl⟩
  simp only [hfp_msbc_decoder_decode_packet]
  split <;> rfl

/-- Claim C6: every decode call invokes the engine single-frame decode
primitive exactly once: the engine-call list of every decode call has
length one and contains one `decodeFrame` invocation. -/
theorem decode_packet_one_engine_call (E : SbcEngine) (st : tHFP_MSBC_DECODER)
    (i : List Nat) (p : BytePtr) :
    (hfp_msbc_decoder_decode_packet E st i p).calls.length = 1 ∧
    (hfp_msbc_decoder_decode_packet E st i p).calls.countP EngineCall.isDecodeFrame = 1 := by
  simp only [hfp_msbc_decoder_decode_packet]
  split <;> simp [List.countP, List.countP.go, EngineCall.isDecodeFrame]

/-- Claim C3: initialize returns success if and only if the reset step
and the mSBC configuration step both report success, and its engine-call
list is the reset invocation followed by the mSBC configuration
invocation exactly when the reset step succeeded (the configuration step
is not attempted when reset fails). -/
theorem init_ok_iff (E : SbcEngine) (st : tHFP_MSBC_DECODER) :
    ((hfp_msbc_decoder_init E st).ok = true ↔
      (OI_SUCCESS (E.decoderReset st.decoder_context st.context_data
          sizeof_context_data 1 1 false).status = true ∧
       OI_SUCCESS (E.decoderConfigureMSbc (E.decoderReset st.decoder_context
          st.context_data sizeof_context_data 1 1 false).ctx).status = true)) ∧
    (hfp_msbc_decoder_init E st).calls =
      EngineCall.reset st.decoder_context st.context_data sizeof_context_data 1 1 false ::
        (if OI_SUCCESS (E.decoderReset st.decoder_context st.context_data
            sizeof_context_data 1 1 false).status = true then
          [EngineCall.configureMSbc (E.decoderReset st.decoder_context st.context_data
            sizeof_context_data 1 1 false).ctx]
        else []) := by
  cases h1 : OI_SUCCESS (E.decoderReset st.decoder_context st.context_data
      sizeof_context_data 1 1 false).status
  · constructor
    · simp [hfp_msbc_decoder_init, h1]
    · simp [hfp_msbc_decoder_init, h1]
  · cases h2 : OI_SUCCESS (E.decoderConfigureMSbc (E.decoderReset st.decoder_context
        st.context_data sizeof_context_data 1 1 false).ctx).status
    · constructor
      · simp [hfp_msbc_decoder_init, h1, h2]
      · simp [hfp_msbc_decoder_init, h1, h2]
    · constructor
      · simp [hfp_msbc_decoder_init, h1, h2]
      · simp [hfp_msbc_decoder_init, h1, h2]

/-- Claim C4: cleanup maps every state to the all-zero-bytes state, so it
is idempotent, and cleanup of the never-initialized static state gives
the same all-zero state as cleanup of any state. -/
theorem cleanup_zeroes_and_idempotent (s : tHFP_MSBC_DECODER) :
    hfp_msbc_decoder_cleanup s = tHFP_MSBC_DECODER.zero ∧
    hfp_msbc_decoder_cleanup (hfp_msbc_decoder_cleanup s) = hfp_msbc_decoder_cleanup s ∧
    hfp_msbc_decoder_cleanup hfp_msbc_decoder_initial = hfp_msbc_decoder_cleanup s :=
  ⟨rfl, rfl, rfl⟩

/-- Claim C5 counterexample: the wrapper does not size its scratch array
with the argument pair selecting the engine stated requirement for mono
(one-channel) fast-filter operation; it passes channel count 2, not 1. -/
theorem scratch_args_not_mono :
    hfp_msbc_context_data_words_args ≠ mono_fast_filter_args := by
  decide

/-- Claim C5 as amended: the wrapper sizes its scratch array with the
engine sizing macro at channel count 2 and the fast-filter buffer count,
and initialize always performs the reset invocation first, handing the
engine the scratch contents, declaring the scratch exact byte capacity
`sizeof(context_data)`, for one channel, pcm stride one, not enhanced. -/
theorem scratch_sizing_and_reset_args :
    hfp_msbc_context_data_words_args = (2, SBC_CODEC_FAST_FILTER_BUFFERS) ∧
    sizeof_context_data =
      4 * CODEC_DATA_WORDS 2 SBC_CODEC_FAST_FILTER_BUFFERS ∧
    ∀ (E : SbcEngine) (st : tHFP_MSBC_DECODER),
      (hfp_msbc_decoder_init E st).calls.head? =
        some (EngineCall.reset st.decoder_context st.context_data
          sizeof_context_data 1 1 false) := by
  refine ⟨rfl, rfl, fun E st => ?_⟩
  simp only [hfp_msbc_decoder_init]
  split
  · rfl
  · split <;> rfl

/-- Helper: a successful decode call stores the address of the internal
output buffer into the caller cell. -/
theorem decode_obuf_of_ok (E : SbcEngine) (st : tHFP_MSBC_DECODER)
    (i : List Nat) (p : BytePtr)
    (h : (hfp_msbc_decoder_decode_packet E st i p).ok = true) :
    (hfp_msbc_decoder_decode_packet E st i p).o_buf = BytePtr.decode_buf_addr := by
  simp only [hfp_msbc_decoder_decode_packet] at h ⊢
  split at h
  next hc =>
    exact absurd h (by simp)
  next hc =>
    simp [hc]

/-- Helper: the returned bool and the decoder state after a decode call do
not depend on the prior value of the caller cell. -/
theorem decode_packet_obuf_irrel (E : SbcEngine) (st : tHFP_MSBC_DECODER)
    (i : List Nat) (p q : BytePtr) :
    (hfp_msbc_decoder_decode_packet E st i p).ok =
      (hfp_msbc_decoder_decode_packet E st i q).ok ∧
    (hfp_msbc_decoder_decode_packet E st i p).st =
      (hfp_msbc_decoder_decode_packet E st i q).st := by
  simp only [hfp_msbc_decoder_decode_packet]
  split <;> exact ⟨rfl, rfl⟩

/-- Claim C7: every successful decode call stores into the caller cell
exactly the address of the internal output buffer (an alias, not a copy),
reading through that address in the post-call state yields the bytes of
that internal buffer, and any two successful calls store the same
address. -/
theorem decode_packet_success_alias (E : SbcEngine) (st : tHFP_MSBC_DECODER)
    (i : List Nat) (p : BytePtr) (E2 : SbcEngine) (st2 : tHFP_MSBC_DECODER)
    (i2 : List Nat) (p2 : BytePtr)
    (h : (hfp_msbc_decoder_decode_packet E st i p).ok = true)
    (h2 : (hfp_msbc_decoder_decode_packet E2 st2 i2 p2).ok = true) :
    (hfp_msbc_decoder_decode_packet E st i p).o_buf = BytePtr.decode_buf_addr ∧
    read_bytes (hfp_msbc_decoder_decode_packet E st i p).st
        (hfp_msbc_decoder_decode_packet E st i p).o_buf =
      some (pcm_bytes (hfp_msbc_decoder_decode_packet E st i p).st.decode_buf) ∧
    (hfp_msbc_decoder_decode_packet E2 st2 i2 p2).o_buf =
      (hfp_msbc_decoder_decode_packet E st i p).o_buf := by
  have e1 := decode_obuf_of_ok E st i p h
  have e2 := decode_obuf_of_ok E2 st2 i2 p2 h2
  refine ⟨e1, ?_, by rw [e1, e2]⟩
  rw [e1]
  rfl

/-- Witness for claim C7 at a concrete succeeding engine and two concrete
successful calls. -/
theorem decode_packet_success_alias_witness :
    (hfp_msbc_decoder_decode_packet engineOk tHFP_MSBC_DECODER.zero
        (List.replicate 60 0) (BytePtr.addr 0)).o_buf = BytePtr.decode_buf_addr ∧
    read_bytes (hfp_msbc_decoder_decode_packet engineOk tHFP_MSBC_DECODER.zero
          (List.replicate 60 0) (BytePtr.addr 0)).st
        (hfp_msbc_decoder_decode_packet engineOk tHFP_MSBC_DECODER.zero
          (List.replicate 60 0) (BytePtr.addr 0)).o_buf =
      some (pcm_bytes (hfp_msbc_decoder_decode_packet engineOk tHFP_MSBC_DECODER.zero
          (List.replicate 60 0) (BytePtr.addr 0)).st.decode_buf) ∧
    (hfp_msbc_decoder_decode_packet engineOk tHFP_MSBC_DECODER.zero
        (List.replicate 60 0) (BytePtr.addr 1)).o_buf =
      (hfp_msbc_decoder_decode_packet engineOk tHFP_MSBC_DECODER.zero
        (List.replicate 60 0) (BytePtr.addr 0)).o_buf :=
  decode_packet_success_alias engineOk tHFP_MSBC_DECODER.zero
    (List.replicate 60 0) (BytePtr.addr 0) engineOk tHFP_MSBC_DECODER.zero
    (List.replicate 60 0) (BytePtr.addr 1) (by decide) (by decide)

/-- Claim C10: a failing decode call leaves the caller cell unchanged; the
cell is written only on the success path. -/
theorem decode_packet_fail_obuf_unchanged (E : SbcEngine) (st : tHFP_MSBC_DECODER)
    (i : List Nat) (p : BytePtr)
    (h : (hfp_msbc_decoder_decode_packet E st i p).ok = false) :
    (hfp_msbc_decoder_decode_packet E st i p).o_buf = p := by
  simp only [hfp_msbc_decoder_decode_packet] at h ⊢
  split at h
  next hc =>
    simp [hc]
  next hc =>
    exact absurd h (by simp)

/-- Witness for claim C10 at a concrete failing engine. -/
theorem decode_packet_fail_obuf_unchanged_witness :
    (hfp_msbc_decoder_decode_packet engineAllFail tHFP_MSBC_DECODER.zero
      (List.replicate 60 0) (BytePtr.addr 5)).o_buf = BytePtr.addr 5 :=
  decode_packet_fail_obuf_unchanged engineAllFail tHFP_MSBC_DECODER.zero
    (List.replicate 60 0) (BytePtr.addr 5) (by decide)

/-- Claim C9: starting from any two decoder states, the sequence cleanup,
then a successful initialize, then decode of the same 60-byte frame,
returns the same bool both times, and when the first run succeeds the two
output-buffer byte images are bit-identical: the sequence is a
deterministic function of the input frame. -/
theorem fresh_decode_repeatable (E : SbcEngine) (s t : tHFP_MSBC_DECODER)
    (i : List Nat) (p q : BytePtr)
    (hlen : i.length = 60)
    (h1 : (hfp_msbc_decoder_init E (hfp_msbc_decoder_cleanup s)).ok = true)
    (h2 : (hfp_msbc_decoder_init E (hfp_msbc_decoder_cleanup t)).ok = true) :
    (hfp_msbc_decoder_decode_packet E
        (hfp_msbc_decoder_init E (hfp_msbc_decoder_cleanup s)).st i p).ok =
      (hfp_msbc_decoder_decode_packet E
        (hfp_msbc_decoder_init E (hfp_msbc_decoder_cleanup t)).st i q).ok ∧
    ((hfp_msbc_decoder_decode_packet E
        (hfp_msbc_decoder_init E (hfp_msbc_decoder_cleanup s)).st i p).ok = true →
      pcm_bytes (hfp_msbc_decoder_decode_packet E
        (hfp_msbc_decoder_init E (hfp_msbc_decoder_cleanup s)).st i p).st.decode_buf =
      pcm_bytes (hfp_msbc_decoder_decode_packet E
        (hfp_msbc_decoder_init E (hfp_msbc_decoder_cleanup t)).st i q).st.decode_buf) := by
  have hst : hfp_msbc_decoder_cleanup s = hfp_msbc_decoder_cleanup t := rfl
  rw [hst]
  have hirr := decode_packet_obuf_irrel E
    (hfp_msbc_decoder_init E (hfp_msbc_decoder_cleanup t)).st i p q
  exact ⟨hirr.1, fun _ => by rw [hirr.2]⟩

/-- Witness for claim C9 at a concrete succeeding engine and a concrete
60-byte frame. -/
theorem fresh_decode_repeatable_witness :
    (hfp_msbc_decoder_decode_packet engineOk
        (hfp_msbc_decoder_init engineOk
          (hfp_msbc_decoder_cleanup tHFP_MSBC_DECODER.zero)).st
        (List.replicate 60 2) (BytePtr.addr 3)).ok =
      (hfp_msbc_decoder_decode_packet engineOk
        (hfp_msbc_decoder_init engineOk
          (hfp_msbc_decoder_cleanup hfp_msbc_decoder_initial)).st
        (List.replicate 60 2) (BytePtr.addr 4)).ok ∧
    pcm_bytes (hfp_msbc_decoder_decode_packet engineOk
        (hfp_msbc_decoder_init engineOk
          (hfp_msbc_decoder_cleanup tHFP_MSBC_DECODER.zero)).st
        (List.replicate 60 2) (BytePtr.addr 3)).st.decode_buf =
      pcm_bytes (hfp_msbc_decoder_decode_packet engineOk
        (hfp_msbc_decoder_init engineOk
          (hfp_msbc_decoder_cleanup hfp_msbc_decoder_initial)).st
        (List.replicate 60 2) (BytePtr.addr 4)).st.decode_buf :=
  ⟨(fresh_decode_repeatable engineOk tHFP_MSBC_DECODER.zero hfp_msbc_decoder_initial
      (List.replicate 60 2) (BytePtr.addr 3) (BytePtr.addr 4)
      (by decide) (by decide) (by decide)).1,
   (fresh_decode_repeatable engineOk tHFP_MSBC_DECODER.zero hfp_msbc_decoder_initial
      (List.replicate 60 2) (BytePtr.addr 3) (BytePtr.addr 4)
      (by decide) (by decide) (by decide)).2 (by decide)⟩

/-- Helper: under the spec-modelled lifecycle property of the engine,
every state in which no successful initialize has occurred since the last
cleanup carries an unconfigured context. -/
theorem uninit_ctx_in_U (E : SbcEngine) (U : OiCtx → Prop)
    (hE : EngineRejectsUnconfigured E U) :
    ∀ s, UninitState E s → U s.decoder_context := by
  intro s h
  induction h with
  | initial => exact hE.1
  | cleaned s => exact hE.1
  | failedInit s h hf ih =>
      obtain ⟨hz, hd, hr, hc⟩ := hE
      by_cases h1 : OI_SUCCESS (E.decoderReset s.decoder_context s.context_data
          sizeof_context_data 1 1 false).status = true
      · by_cases h2 : OI_SUCCESS (E.decoderConfigureMSbc (E.decoderReset s.decoder_context
            s.context_data sizeof_context_data 1 1 false).ctx).status = true
        · exact absurd hf (by simp [hfp_msbc_decoder_init, h1, h2])
        · have hU := hc s.decoder_context s.context_data sizeof_context_data 1 1 false
            ih h1 (by simpa using h2)
          simpa [hfp_msbc_decoder_init, h1, h2] using hU
      · have hU := hr s.decoder_context s.context_data sizeof_context_data 1 1 false
          ih (by simpa using h1)
        simpa [hfp_msbc_decoder_init, h1] using hU
  | decoded s i p h ih =>
      have hU := (hE.2.1 s.decoder_context s.context_data i
        HFP_MSBC_PKT_LEN sizeof_decode_buf ih).2
      simp only [hfp_msbc_decoder_decode_packet]
      split <;> exact hU

/-- Claim C8: under the spec-modelled lifecycle property of the engine,
a decode call on any state in which no successful initialize has occurred
since the last cleanup (including the initial all-zero state) returns
failure. -/
theorem decode_packet_before_init_fails (E : SbcEngine) (U : OiCtx → Prop)
    (hE : EngineRejectsUnconfigured E U) (s : tHFP_MSBC_DECODER)
    (hs : UninitState E s) (i : List Nat) (p : BytePtr) :
    (hfp_msbc_decoder_decode_packet E s i p).ok = false := by
  have hU := uninit_ctx_in_U E U hE s hs
  have hfail := (hE.2.1 s.decoder_context s.context_data i
    HFP_MSBC_PKT_LEN sizeof_decode_buf hU).1
  simp [hfp_msbc_decoder_decode_packet, hfail]

/-- Witness for claim C8 at a concrete engine that rejects everything,
with the class of unconfigured contexts taken to be all contexts, on the
initial all-zero state. -/
theorem decode_packet_before_init_fails_witness :
    (hfp_msbc_decoder_decode_packet engineAllFail hfp_msbc_decoder_initial
      (List.replicate 60 0) (BytePtr.addr 7)).ok = false :=
  decode_packet_before_init_fails engineAllFail (fun _ => True)
    ⟨trivial,
     fun _ _ _ _ _ _ => ⟨rfl, trivial⟩,
     fun _ _ _ _ _ _ _ _ => trivial,
     fun _ _ _ _ _ _ _ _ _ => trivial⟩
    hfp_msbc_decoder_initial UninitState.initial (List.replicate 60 0) (BytePtr.addr 7)
